import Mathlib

/-!
Verification of the MDAS batch uploader repository.

The repository holds two generations of the same command-line tool:
* `src/scripts/mdas-batch-uploader-v1.4.0.py` (class `MDASUploader`), the latest
  generation with an instance lock, a file-claim protocol and a wake-up loop;
* `src/batch-uploader.py` (class `MMSUploader`, v1.1.5), the older generation
  with host-approval gating and chunked transfers.

Definitions below are shallow embeddings of those two scripts.  File names are
modelled as `List Char`, byte contents as `List Nat`, and the outcomes of the
external world (HTTP responses, rename success, liveness of a pid) as oracle
fields of environment records.  Every definition is annotated with the source
location it embeds.
-/

/- ===== Constants (mdas-batch-uploader-v1.4.0.py lines 60-72, batch-uploader.py lines 41-46) ===== -/

/-- Chunk threshold, 25 MiB (`CHUNK_SIZE = 25 * 1024 * 1024` in both scripts). -/
def CHUNK_SIZE : Nat := 25 * 1024 * 1024

/-- Retry ceiling (`MAX_RETRIES = 3` in both scripts). -/
def MAX_RETRIES : Nat := 3

/-- Wake-up attempt cap (`MAX_WAKEUP_ATTEMPTS = 30`, v1.4.0 only). -/
def MAX_WAKEUP_ATTEMPTS : Nat := 30

/-- Wake-up inter-attempt delay in seconds (`WAKEUP_INTERVAL = 5`, v1.4.0 only). -/
def WAKEUP_INTERVAL : Nat := 5

/-- Lock staleness threshold in minutes (`LOCK_STALE_MINUTES = 30`, v1.4.0 only). -/
def LOCK_STALE_MINUTES : Nat := 30

/-- Reserved claim suffix (`UPLOADING_EXTENSION = ".uploading"`, v1.4.0 only). -/
def UPLOADING_EXTENSION : String := ".uploading"

/-- The claim suffix as a character list; all name surgery below works on
`List Char`.  `uploadingPat_eq_ext` checks it against the string constant. -/
def uploadingPat : List Char := ['.', 'u', 'p', 'l', 'o', 'a', 'd', 'i', 'n', 'g']

/- ===== File-name surgery: claim / unclaim (v1.4.0 lines 312-345) ===== -/

/-- Scanner for Python `str.replace(UPLOADING_EXTENSION, "")`: walk the name
left to right; when `".uploading"` starts at the current position, delete it
(the first argument counts the 9 remaining pattern characters to skip) and
continue after it; otherwise keep the character.  This is exactly the
non-overlapping left-to-right semantics of `str.replace` with an empty
replacement. -/
def stripGo : Nat → List Char → List Char
  | 0, [] => []
  | 0, c :: t => if uploadingPat.isPrefixOf (c :: t) then stripGo 9 t else c :: stripGo 0 t
  | _ + 1, [] => []
  | n + 1, _ :: t => stripGo n t

/-- Embeds `claimed_path.name.replace(UPLOADING_EXTENSION, "")`
(v1.4.0 `_unclaim_file`, line 337): remove every `".uploading"` occurrence. -/
def stripU (l : List Char) : List Char := stripGo 0 l

/-- Decides whether `".uploading"` occurs anywhere in a name (as a substring).
Used to state when `stripU` is the identity. -/
def hasU : List Char → Bool
  | [] => false
  | c :: t => uploadingPat.isPrefixOf (c :: t) || hasU t

/-- Embeds `file_path.with_suffix(file_path.suffix + UPLOADING_EXTENSION)`
(v1.4.0 `_claim_file`, line 321).  `with_suffix` replaces the final suffix of
the name with the argument; since the argument is the old suffix followed by
`".uploading"`, the result is always the original name with `".uploading"`
appended (this also covers names with no extension, where the old suffix is
empty). -/
def claimName (n : List Char) : List Char := n ++ uploadingPat

/-- Embeds v1.4.0 `_unclaim_file` (lines 332-345): the claimed file is renamed
to its name with every `".uploading"` occurrence removed. -/
def unclaimName (n : List Char) : List Char := stripU n

/-- A file on disk: a name and its byte content.  A rename changes only the
name, never the bytes. -/
def claimFile (f : List Char × List Nat) : List Char × List Nat := (claimName f.1, f.2)

/-- Renaming the claimed file back (v1.4.0 `_unclaim_file`); bytes untouched. -/
def unclaimFile (f : List Char × List Nat) : List Char × List Nat := (unclaimName f.1, f.2)

/-- Embeds `f.name.startswith(".")` from the inbox scan (v1.4.0 line 673). -/
def startsWithDot : List Char → Bool
  | [] => false
  | c :: _ => c == '.'

/-- Embeds `f.name.endswith(UPLOADING_EXTENSION)` from the inbox scan
(v1.4.0 line 673). -/
def endsWithU (n : List Char) : Bool := uploadingPat.isSuffixOf n

/-- Embeds the display-name computation of `_upload_single_file`
(v1.4.0 line 607): strip the claim suffix for display/upload only when the
name ends with it. -/
def displayName (n : List Char) : List Char := if endsWithU n then stripU n else n

/- ===== Ping and upload HTTP outcomes ===== -/

/-- Outcome of one `GET /api/uploader/ping`, as the scripts consume it: either
an exception (timeout, connection error, bad body), or a decoded response with
its HTTP status and the fields the scripts read, after the `data.get(...)`
defaulting (`keyStatus` defaults to `"not_provided"`, `serviceStatus` to
`"unknown"`, `hostApproval` to absent). -/
inductive PingOutcome where
  | ex : PingOutcome
  | resp (status : Nat) (serviceStatus : String) (keyStatus : String)
      (hostApproval : Option String) : PingOutcome
deriving DecidableEq

/-- Outcome of one upload POST in v1.4.0: an exception or an HTTP status. -/
inductive UploadOutcome where
  | ex : UploadOutcome
  | resp (status : Nat) : UploadOutcome
deriving DecidableEq

/-- Embeds v1.4.0 `_wakeup_ping` (lines 391-439): a single wake-up ping
succeeds only when the HTTP status is 200, `serviceStatus == "running"` and
`keyStatus == "valid"`; every other response and every exception yields
`False`.  (The code requires `keyStatus == "valid"` unconditionally; the
`hostApproval` field of the stored ping data is never consulted.) -/
def wakeupPing : PingOutcome → Bool
  | .ex => false
  | .resp status svc key _ => status == 200 && svc == "running" && key == "valid"

/-- Embeds the v1.4.0 `_wakeup_server` loop body (lines 456-484): `attempt` is
the 1-based attempt counter, the second argument the remaining attempts out of
`MAX_WAKEUP_ATTEMPTS`.  Returns (success, number of pings sent, the sleeps
performed in seconds).  The code sleeps `WAKEUP_INTERVAL` after every failed
attempt, including the last one. -/
def wakeupGo (outs : Nat → PingOutcome) (attempt : Nat) : Nat → Bool × Nat × List Nat
  | 0 => (false, 0, [])
  | remaining + 1 =>
    if wakeupPing (outs attempt) then (true, 1, [])
    else
      let r := wakeupGo outs (attempt + 1) remaining
      (r.1, r.2.1 + 1, WAKEUP_INTERVAL :: r.2.2)

/-- Embeds v1.4.0 `_wakeup_server` (lines 441-489): up to
`MAX_WAKEUP_ATTEMPTS` pings, starting at attempt 1. -/
def wakeupServer (outs : Nat → PingOutcome) : Bool × Nat × List Nat :=
  wakeupGo outs 1 MAX_WAKEUP_ATTEMPTS

/-- Embeds the per-attempt success test of v1.4.0 `_upload_single_file`
(lines 630-649): HTTP 200 is success, HTTP 409 (duplicate already on the
server) is treated as success, any other status or exception is a failure. -/
def attemptSuccess : UploadOutcome → Bool
  | .ex => false
  | .resp status => status == 200 || status == 409

/-- Embeds the retry loop of v1.4.0 `_upload_single_file` (lines 613-657):
`attempt` is the 1-based attempt number, the second argument the remaining
attempts out of `MAX_RETRIES`.  Returns (success, attempts made, sleeps in
seconds).  After a failed attempt that is not the last, the code sleeps
`2 ** attempt` seconds (line 652); there is no sleep after the final failed
attempt. -/
def uploadGo (outs : Nat → UploadOutcome) (attempt : Nat) : Nat → Bool × Nat × List Nat
  | 0 => (false, 0, [])
  | remaining + 1 =>
    if attemptSuccess (outs attempt) then (true, 1, [])
    else if remaining = 0 then (false, 1, [])
    else
      let r := uploadGo outs (attempt + 1) remaining
      (r.1, r.2.1 + 1, 2 ^ attempt :: r.2.2)

/-- Embeds v1.4.0 `_upload_single_file` (lines 603-657).  Note that each
attempt posts the whole file as one multipart request; no chunking occurs in
v1.4.0 (its `CHUNK_SIZE` constant is unused). -/
def uploadSingleFile (outs : Nat → UploadOutcome) : Bool × Nat × List Nat :=
  uploadGo outs 1 MAX_RETRIES

/- ===== What a transfer puts on the wire ===== -/

/-- A single HTTP upload request: either the whole file in one multipart body
(with the name the server will see and the byte count), or one chunk carrying
its 0-based index, the total chunk count and the byte count of the chunk. -/
inductive Request where
  | wholeFile (name : List Char) (size : Nat) : Request
  | chunk (index : Nat) (totalChunks : Nat) (size : Nat) : Request
deriving DecidableEq

/-- Embeds what one attempt of v1.4.0 `_upload_single_file` sends (lines
615-627): a single POST of the entire file, under the display name, whatever
the file size.  v1.4.0 never splits a file into chunks. -/
def mdasAttemptRequest (claimedName : List Char) (size : Nat) : Request :=
  Request.wholeFile (displayName claimedName) size

/-- Payload size of a request. -/
def requestBytes : Request → Nat
  | .wholeFile _ s => s
  | .chunk _ _ s => s

/-- Embeds the chunk loop of MMSUploader `_upload_file`
(batch-uploader.py lines 414-425): `total = ceil(size / CHUNK_SIZE)` chunks;
chunk `i` carries index `i`, the total count, and the bytes returned by the
`i`-th sequential `f.read(CHUNK_SIZE)`, namely `min CHUNK_SIZE (size - i * CHUNK_SIZE)`. -/
def mmsChunkRequests (size : Nat) : List Request :=
  let total := (size + CHUNK_SIZE - 1) / CHUNK_SIZE
  (List.range total).map (fun i => Request.chunk i total (min CHUNK_SIZE (size - i * CHUNK_SIZE)))

/-- Embeds the chunked-or-whole decision of MMSUploader `_upload_file`
(batch-uploader.py lines 413-430): chunk exactly when `size > CHUNK_SIZE`,
otherwise one whole-file request. -/
def mmsTransferRequests (name : List Char) (size : Nat) : List Request :=
  if CHUNK_SIZE < size then mmsChunkRequests size else [Request.wholeFile name size]

/-- Embeds the retry recursion of MMSUploader `_upload_file`
(batch-uploader.py lines 397-442): `outs rc` tells whether the attempt made at
`retry_count = rc` succeeds; on failure with `rc < MAX_RETRIES` the code sleeps
`2 ** rc` seconds and recurses with `rc + 1`; at `rc = MAX_RETRIES` it gives
up with no further sleep.  The second argument is `MAX_RETRIES - rc`.
Returns (success, sleeps in seconds). -/
def mmsUploadGo (outs : Nat → Bool) (rc : Nat) : Nat → Bool × List Nat
  | 0 => (outs rc, [])
  | fuel + 1 =>
    if outs rc then (true, [])
    else
      let r := mmsUploadGo outs (rc + 1) fuel
      (r.1, 2 ^ rc :: r.2)

/-- Embeds a full MMSUploader `_upload_file` call, which starts at
`retry_count = 0`. -/
def mmsUploadFile (outs : Nat → Bool) : Bool × List Nat :=
  mmsUploadGo outs 0 MAX_RETRIES

/- ===== The v1.4.0 batch pipeline (upload_batch, lines 659-744) ===== -/

/-- Per-file status string recorded in `results["files"]`
(v1.4.0 lines 708, 718, 723). -/
inductive FileStatus where
  | success : FileStatus
  | failed : FileStatus
  | skipped : FileStatus
deriving DecidableEq

/-- Final on-disk state of one inbox file after a run that terminates
normally (no process kill). -/
inductive FileFate where
  /-- Never claimed by this run: the run aborted before the loop, or the
  claim rename failed (another process owns or consumed the file). -/
  | notTouched : FileFate
  /-- Moved into the processed folder. -/
  | processed : FileFate
  /-- Renamed back into the inbox under the given name by `_unclaim_file`. -/
  | unclaimed (restoredName : List Char) : FileFate
  /-- Left in the inbox under the given claimed name (still bearing the
  `.uploading` suffix). -/
  | claimedLeft (claimedName : List Char) : FileFate
deriving DecidableEq

/-- One inbox file together with the answers of the environment for it:
whether the claim rename succeeds (v1.4.0 `_claim_file` returns a path),
the outcome of each upload attempt, and whether the `shutil.move` inside
`_move_to_processed` succeeds. -/
structure FileSpec where
  name : List Char
  size : Nat
  claimOk : Bool
  uploadOuts : Nat → UploadOutcome
  moveOk : Bool

/-- Embeds the per-file body of the v1.4.0 `upload_batch` loop (lines
699-723): claim (skip on failure); upload with retries; on success call
`_move_to_processed` and ignore its Boolean result (line 716) — so a failed
move leaves the file under its claimed name; on failure unclaim.  In this
abstraction the unclaim rename of `_unclaim_file` is taken to succeed; its
exception branch (lines 340-345, which returns the claimed path unchanged)
is modelled by `processFileFull` below, and the claim whose content depends
on that branch is stated over `processFileFull`. -/
def processFile (f : FileSpec) : FileStatus × FileFate :=
  if f.claimOk = false then (FileStatus.skipped, FileFate.notTouched)
  else if (uploadSingleFile f.uploadOuts).1 then
    if f.moveOk then (FileStatus.success, FileFate.processed)
    else (FileStatus.success, FileFate.claimedLeft (claimName f.name))
  else (FileStatus.failed, FileFate.unclaimed (unclaimName (claimName f.name)))

/-- Environment of one run of the v1.4.0 `upload_batch`: whether the instance
lock can be acquired, the inbox directory listing, and the wake-up ping
outcomes (the per-file oracles live in each `FileSpec`). -/
structure Env where
  lockOk : Bool
  inbox : List FileSpec
  pingOuts : Nat → PingOutcome

/-- Embeds the inbox scan (v1.4.0 lines 671-674): regular files whose name
neither starts with `"."` nor ends with `".uploading"`. -/
def scanInbox (inbox : List FileSpec) : List FileSpec :=
  inbox.filter (fun f => !(startsWithDot f.name) && !(endsWithU f.name))

/-- Aggregate result of one v1.4.0 `upload_batch` run, together with the
final fate of each scanned file (the fate list is empty on the abort paths
that touch no file and on the empty-inbox path). -/
structure RunResult where
  successful : Nat
  failed : Nat
  skipped : Nat
  records : List (List Char × FileStatus)
  fates : List (List Char × FileFate)
  lockConflict : Bool
  serverUnavailable : Bool

/-- Result returned on the lock-conflict abort (v1.4.0 line 668):
`successful = failed = skipped = 0`, error `"Lock conflict"`. -/
def lockConflictResult : RunResult :=
  { successful := 0, failed := 0, skipped := 0, records := [], fates := [],
    lockConflict := true, serverUnavailable := false }

/-- Result returned when the scanned inbox is empty (v1.4.0 line 679). -/
def emptyInboxResult : RunResult :=
  { successful := 0, failed := 0, skipped := 0, records := [], fates := [],
    lockConflict := false, serverUnavailable := false }

/-- Result returned when the wake-up loop exhausts its budget (v1.4.0 line
687): zero successes, `failed = len(files)`, error `"Server unavailable"`;
no file has been claimed. -/
def serverFailResult (files : List FileSpec) : RunResult :=
  { successful := 0, failed := files.length, skipped := 0, records := [],
    fates := files.map (fun f => (f.name, FileFate.notTouched)),
    lockConflict := false, serverUnavailable := true }

/-- Result of the main loop (v1.4.0 lines 690-744): process each scanned file
in order, counting statuses exactly as the `results` dictionary of the loop does. -/
def mainLoopResult (files : List FileSpec) : RunResult :=
  let outs := files.map (fun f => (f.name, processFile f))
  { successful := (outs.filter (fun p => decide (p.2.1 = FileStatus.success))).length
    failed := (outs.filter (fun p => decide (p.2.1 = FileStatus.failed))).length
    skipped := (outs.filter (fun p => decide (p.2.1 = FileStatus.skipped))).length
    records := outs.map (fun p => (p.1, p.2.1))
    fates := outs.map (fun p => (p.1, p.2.2))
    lockConflict := false, serverUnavailable := false }

/-- Embeds v1.4.0 `upload_batch` (lines 659-744): acquire the instance lock
(abort on conflict), scan the inbox, return early when it is empty, run the
wake-up loop (abort marking every scanned file failed), then process each
file. -/
def uploadBatch (env : Env) : RunResult :=
  if env.lockOk = false then lockConflictResult
  else
    let files := scanInbox env.inbox
    if files.isEmpty then emptyInboxResult
    else if (wakeupServer env.pingOuts).1 = false then serverFailResult files
    else mainLoopResult files

/-- Embeds the upload action of v1.4.0 `main` (lines 855-860):
`sys.exit(0 if results["failed"] == 0 else 1)`. -/
def uploadActionExitCode (env : Env) : Nat :=
  if (uploadBatch env).failed = 0 then 0 else 1

/- ===== The v1.4.0 pipeline with every rename outcome modelled ===== -/

/-- Embeds v1.4.0 `_unclaim_file` (lines 332-345) at the path level,
including its exception branch: try to rename the claimed path to the name
with every `".uploading"` occurrence removed; if the rename raises, the
method logs the error and returns the claimed path unchanged, so the file
keeps its claim suffix. -/
def unclaimPath (renameOk : Bool) (claimed : List Char) : List Char :=
  if renameOk then stripU claimed else claimed

/-- One inbox file with the filesystem answers for the whole per-file
pipeline: like `FileSpec`, plus whether the unclaim rename inside
`_unclaim_file` succeeds. -/
structure FileOracles where
  name : List Char
  size : Nat
  claimOk : Bool
  uploadOuts : Nat → UploadOutcome
  moveOk : Bool
  unclaimOk : Bool

/-- Embeds the per-file body of the v1.4.0 `upload_batch` loop (lines
699-723) with every filesystem outcome modelled: claim (skip on failure);
upload with retries; on success `_move_to_processed` with its result ignored
(line 716), a failed move leaving the claimed name; on failure
`_unclaim_file`, whose failed rename (lines 340-345) also leaves the file
under its claimed name. -/
def processFileFull (f : FileOracles) : FileStatus × FileFate :=
  if f.claimOk = false then (FileStatus.skipped, FileFate.notTouched)
  else if (uploadSingleFile f.uploadOuts).1 then
    if f.moveOk then (FileStatus.success, FileFate.processed)
    else (FileStatus.success, FileFate.claimedLeft (claimName f.name))
  else if f.unclaimOk then
    (FileStatus.failed, FileFate.unclaimed (unclaimPath true (claimName f.name)))
  else (FileStatus.failed, FileFate.claimedLeft (unclaimPath false (claimName f.name)))

/-- Environment of one v1.4.0 `upload_batch` run under the full oracle
model. -/
structure EnvFull where
  lockOk : Bool
  inbox : List FileOracles
  pingOuts : Nat → PingOutcome

/-- The inbox scan (v1.4.0 lines 671-674) over full-oracle files. -/
def scanInboxFull (inbox : List FileOracles) : List FileOracles :=
  inbox.filter (fun f => !(startsWithDot f.name) && !(endsWithU f.name))

/-- Wake-up exhaustion result (v1.4.0 line 687) over full-oracle files. -/
def serverFailResultFull (files : List FileOracles) : RunResult :=
  { successful := 0, failed := files.length, skipped := 0, records := [],
    fates := files.map (fun f => (f.name, FileFate.notTouched)),
    lockConflict := false, serverUnavailable := true }

/-- Main-loop result (v1.4.0 lines 690-744) over full-oracle files. -/
def mainLoopResultFull (files : List FileOracles) : RunResult :=
  let outs := files.map (fun f => (f.name, processFileFull f))
  { successful := (outs.filter (fun p => decide (p.2.1 = FileStatus.success))).length
    failed := (outs.filter (fun p => decide (p.2.1 = FileStatus.failed))).length
    skipped := (outs.filter (fun p => decide (p.2.1 = FileStatus.skipped))).length
    records := outs.map (fun p => (p.1, p.2.1))
    fates := outs.map (fun p => (p.1, p.2.2))
    lockConflict := false, serverUnavailable := false }

/-- Embeds v1.4.0 `upload_batch` (lines 659-744) under the full oracle
model, mirroring `uploadBatch`. -/
def uploadBatchFull (env : EnvFull) : RunResult :=
  if env.lockOk = false then lockConflictResult
  else
    let files := scanInboxFull env.inbox
    if files.isEmpty then emptyInboxResult
    else if (wakeupServer env.pingOuts).1 = false then serverFailResultFull files
    else mainLoopResultFull files

/- ===== v1.4.0 ping action (lines 491-567, 847-849) ===== -/

/-- Embeds v1.4.0 `MDASUploader.ping` (lines 491-567): returns `True` exactly
when the HTTP status is 200; the `keyStatus` and host-approval fields only
select the text that is printed and never change the return value. -/
def mdasPing : PingOutcome → Bool
  | .ex => false
  | .resp status _ _ _ => status == 200

/-- Embeds the ping action of v1.4.0 `main` (lines 847-849):
`sys.exit(0 if success else 1)`. -/
def mdasPingExit (o : PingOutcome) : Nat := if mdasPing o then 0 else 1

/-- Embeds `MMSUploader.ping` (batch-uploader.py lines 122-285):
`raise_for_status()` turns a 4xx/5xx status into an exception handled as
`False`; otherwise the method runs through its display logic and returns
`True` whatever `keyStatus` and `hostApproval` contain. -/
def mmsPing : PingOutcome → Bool
  | .ex => false
  | .resp status _ _ _ => !(400 ≤ status && status < 600)

/- ===== MMSUploader.upload_batch host-approval gate (batch-uploader.py lines 444-562) ===== -/

/-- Embeds the host-approval test of MMSUploader `upload_batch` (lines
481-495): abort on `"pending"` or `"denied"`; any other value (including
`"approved"`, an unknown string, or an absent field) lets the run proceed. -/
def gateBlocked : Option String → Bool
  | some s => s == "pending" || s == "denied"
  | none => false

/-- Environment of one MMSUploader `upload_batch` run: whether an API key is
configured, the folder listing (per file: the name and the success of the
attempt at each `retry_count`), the result of the initial connection test
(`ping()`), and the `hostApproval` field of the last ping response. -/
structure MMSEnv where
  hasKey : Bool
  files : List (List Char × (Nat → Bool))
  pingOk : Bool
  hostApproval : Option String

/-- Aggregate of one MMSUploader `upload_batch` run; `uploadsAttempted` lists
the files for which a transfer was actually started. -/
structure MMSResult where
  total : Nat
  successful : Nat
  failed : Nat
  uploadsAttempted : List (List Char)

/-- The abort record of MMSUploader `upload_batch`
(`{"total": 0, "successful": 0, "failed": 0, "uploads": []}`). -/
def mmsAbortResult : MMSResult :=
  { total := 0, successful := 0, failed := 0, uploadsAttempted := [] }

/-- Embeds MMSUploader `upload_batch` (batch-uploader.py lines 444-562):
empty folder returns the abort record; a failed connection test aborts; with
an API key configured, a last-ping `hostApproval` of `"pending"` or
`"denied"` aborts before any file is uploaded; otherwise every file is
uploaded in turn through `_upload_file`.  (The between-batch busy polling
only sleeps and is not modelled.) -/
def mmsUploadBatch (env : MMSEnv) : MMSResult :=
  if env.files.isEmpty then mmsAbortResult
  else if env.pingOk = false then mmsAbortResult
  else if env.hasKey && gateBlocked env.hostApproval then mmsAbortResult
  else
    { total := env.files.length
      successful := (env.files.filter (fun p => (mmsUploadFile p.2).1)).length
      failed := (env.files.filter (fun p => !(mmsUploadFile p.2).1)).length
      uploadsAttempted := env.files.map (fun p => p.1) }

/- ===== Instance lock (v1.4.0 InstanceLock, lines 88-188) ===== -/

/-- Contents of the lock file (v1.4.0 `_write_lock_info`, lines 108-117):
pid, hostname and the `time.time()` timestamp (seconds; the human-readable
`started_at` string is display-only and not modelled). -/
structure LockInfo where
  pid : Nat
  hostname : String
  timestamp : Int
deriving DecidableEq

/-- Identity of the acquiring process and its oracles: current wall-clock time
in seconds and the liveness test `os.kill(pid, 0)` used by
`_is_process_running`. -/
structure LockCtx where
  selfPid : Nat
  selfHost : String
  now : Int
  alive : Nat → Bool

/-- Embeds `InstanceLock._is_lock_stale` (lines 119-127):
`(now - timestamp) / 60 > stale_minutes`, i.e. the age in seconds exceeds
`stale_minutes * 60` (the Python comparison is on exact floats). -/
def isLockStale (staleMinutes : Nat) (now : Int) (info : LockInfo) : Bool :=
  (staleMinutes : Int) * 60 < now - info.timestamp

/-- Result of an acquire: the token now in the lock file, or a conflict. -/
inductive AcquireOutcome where
  | ok (written : LockInfo) : AcquireOutcome
  | conflict : AcquireOutcome
deriving DecidableEq

/-- The token `_write_lock_info` writes for the acquiring process. -/
def selfLockInfo (ctx : LockCtx) : LockInfo :=
  { pid := ctx.selfPid, hostname := ctx.selfHost, timestamp := ctx.now }

/-- Embeds `InstanceLock.acquire` (lines 140-176).  `existing` is what
`_read_lock_info` returned (`none` for a missing or unreadable lock file).
Order of the checks as in the code: staleness first (override regardless of
liveness or host), then same-host liveness, then the conservative
different-host refusal.  (A pid of non-integer JSON type and an `IOError`
while writing are not modelled.) -/
def lockAcquire (ctx : LockCtx) (existing : Option LockInfo) : AcquireOutcome :=
  match existing with
  | none => AcquireOutcome.ok (selfLockInfo ctx)
  | some info =>
    if isLockStale LOCK_STALE_MINUTES ctx.now info then AcquireOutcome.ok (selfLockInfo ctx)
    else if info.hostname == ctx.selfHost then
      if ctx.alive info.pid then AcquireOutcome.conflict
      else AcquireOutcome.ok (selfLockInfo ctx)
    else AcquireOutcome.conflict

/- ===== Concrete runs used by counterexamples and witnesses ===== -/

/-- A run whose instance lock cannot be acquired. -/
def envLockConflict : Env :=
  { lockOk := false, inbox := [], pingOuts := fun _ => PingOutcome.ex }

/-- An inbox file that claims, uploads (HTTP 200 at once) and moves cleanly. -/
def fileClean : FileSpec :=
  { name := "a.txt".toList, size := 10 * 1024, claimOk := true,
    uploadOuts := fun _ => UploadOutcome.resp 200, moveOk := true }

/-- A run whose wake-up ping reports the service running with a valid key but
with host approval `"denied"` — v1.4.0 proceeds anyway. -/
def envDeniedHost : Env :=
  { lockOk := true, inbox := [fileClean],
    pingOuts := fun _ => PingOutcome.resp 200 "running" "valid" (some "denied") }

/-- A full-oracle file whose upload succeeds but whose move to the processed
folder fails (its unclaim rename would succeed but is never reached). -/
def fileMoveFailsFull : FileOracles :=
  { name := "doc.pdf".toList, size := 2048, claimOk := true,
    uploadOuts := fun _ => UploadOutcome.resp 200, moveOk := false, unclaimOk := true }

/-- A full-oracle run exercising the failed move to processed. -/
def envMoveFailsFull : EnvFull :=
  { lockOk := true, inbox := [fileMoveFailsFull],
    pingOuts := fun _ => PingOutcome.resp 200 "running" "valid" none }

/-- A full-oracle file that claims, uploads and moves cleanly. -/
def fileCleanFull : FileOracles :=
  { name := "a.txt".toList, size := 10 * 1024, claimOk := true,
    uploadOuts := fun _ => UploadOutcome.resp 200, moveOk := true, unclaimOk := true }

/-- A full-oracle run of the clean file. -/
def envCleanFull : EnvFull :=
  { lockOk := true, inbox := [fileCleanFull],
    pingOuts := fun _ => PingOutcome.resp 200 "running" "valid" none }

/-- A file whose name contains the reserved substring and whose every upload
attempt fails. -/
def fileMangled : FileSpec :=
  { name := "data.uploading.txt".toList, size := 512, claimOk := true,
    uploadOuts := fun _ => UploadOutcome.ex, moveOk := true }

/-- A file with an ordinary name whose every upload attempt fails. -/
def fileAllFail : FileSpec :=
  { name := "report.txt".toList, size := 512, claimOk := true,
    uploadOuts := fun _ => UploadOutcome.ex, moveOk := true }

/-- A run whose every wake-up ping raises a connection error. -/
def envServerDown : Env :=
  { lockOk := true, inbox := [fileClean], pingOuts := fun _ => PingOutcome.ex }

/-- An MMS run with a key, a reachable server and host approval pending. -/
def mmsEnvPending : MMSEnv :=
  { hasKey := true, files := [("a.txt".toList, fun _ => true)],
    pingOk := true, hostApproval := some "pending" }

/-- A lock-file token 45 minutes old, owned by a live process on another
host. -/
def staleInfo : LockInfo := { pid := 4242, hostname := "otherhost", timestamp := 0 }

/-- An acquiring process looking at `staleInfo` 45 minutes later, with every
pid reported alive. -/
def staleCtx : LockCtx :=
  { selfPid := 77, selfHost := "thishost", now := 2700, alive := fun _ => true }

/- ===== Helper lemmas ===== -/

/-- Sanity check: the character-list pattern is the string constant. -/
theorem uploadingPat_eq_ext : uploadingPat = UPLOADING_EXTENSION.toList := by decide

/-- Unfolding lemma for `stripU` at a position where the pattern does not
match: the character is kept. -/
theorem stripU_cons (c : Char) (t : List Char)
    (h : uploadingPat.isPrefixOf (c :: t) = false) : stripU (c :: t) = c :: stripU t := by
  rw [stripU, stripU, stripGo.eq_2, h]
  simp

/-- Unfolding lemma for `stripU` at a position where the pattern matches: the
whole occurrence is removed and scanning resumes after it. -/
theorem stripU_pat (rest : List Char) : stripU (uploadingPat ++ rest) = stripU rest := by
  rw [stripU, stripU, uploadingPat]
  simp only [List.cons_append, List.nil_append]
  rw [stripGo.eq_2]
  norm_num [uploadingPat, List.isPrefixOf, stripGo]

/-- Key structural fact about the pattern `".uploading"`: its first character
`"."` occurs nowhere else in it, so no new occurrence can straddle the
boundary when the pattern is appended to a name that does not start an
occurrence. -/
theorem no_prefix_boundary (c : Char) (t : List Char)
    (h : uploadingPat.isPrefixOf (c :: t) = false) :
    uploadingPat.isPrefixOf ((c :: t) ++ uploadingPat) = false := by
  by_contra hcon
  rw [Bool.not_eq_false, List.isPrefixOf_iff_prefix] at hcon
  by_cases hlen : uploadingPat.length ≤ (c :: t).length
  · have hpm : uploadingPat <+: (c :: t) :=
      List.prefix_of_prefix_length_le hcon (List.prefix_append _ _) (by simpa using hlen)
    rw [← List.isPrefixOf_iff_prefix] at hpm
    rw [hpm] at h
    exact Bool.noConfusion h
  · push_neg at hlen
    have htake := List.prefix_iff_eq_take.mp hcon
    rw [List.take_append_eq_append_take, List.take_of_length_le (Nat.le_of_lt hlen)] at htake
    have hdrop := congrArg (List.drop (c :: t).length) htake
    rw [List.drop_left] at hdrop
    have hk1 : 1 ≤ (c :: t).length := by simp
    have hk9 : (c :: t).length ≤ 9 := by
      have : uploadingPat.length = 10 := by decide
      omega
    set k := (c :: t).length with hkdef
    interval_cases k <;> revert hdrop <;> decide

/-- Stripping the claim suffix off `n ++ ".uploading"` gives back `n` whenever
`n` itself contains no `".uploading"` occurrence. -/
theorem stripU_append_pat (n : List Char) (h : hasU n = false) :
    stripU (n ++ uploadingPat) = n := by
  induction n with
  | nil => decide
  | cons c t ih =>
    rw [hasU] at h
    rw [Bool.or_eq_false_iff] at h
    obtain ⟨h1, h2⟩ := h
    rw [List.cons_append,
      stripU_cons c (t ++ uploadingPat) (by simpa using no_prefix_boundary c t h1), ih h2]

/-- When every one of the `MAX_RETRIES` attempts fails, v1.4.0
`_upload_single_file` makes exactly 3 attempts and sleeps 2 then 4 seconds
between them. -/
theorem uploadAllFail (outs : Nat → UploadOutcome)
    (h : ∀ k, 1 ≤ k → k ≤ MAX_RETRIES → attemptSuccess (outs k) = false) :
    uploadSingleFile outs = (false, 3, [2, 4]) := by
  have h1 := h 1 (by norm_num) (by norm_num [MAX_RETRIES])
  have h2 := h 2 (by norm_num) (by norm_num [MAX_RETRIES])
  have h3 := h 3 (by norm_num) (by norm_num [MAX_RETRIES])
  simp [uploadSingleFile, MAX_RETRIES, uploadGo, h1, h2, h3]

/-- When every attempt fails, MMSUploader `_upload_file` sleeps 1, 2 then 4
seconds before its three retries and returns failure. -/
theorem mmsAllFail (outs : Nat → Bool)
    (h : ∀ k, k ≤ MAX_RETRIES → outs k = false) :
    mmsUploadFile outs = (false, [1, 2, 4]) := by
  have h0 := h 0 (by norm_num)
  have h1 := h 1 (by norm_num [MAX_RETRIES])
  have h2 := h 2 (by norm_num [MAX_RETRIES])
  have h3 := h 3 (by norm_num [MAX_RETRIES])
  simp [mmsUploadFile, MAX_RETRIES, mmsUploadGo, h0, h1, h2, h3]

/-- The wake-up loop never sends more pings than its remaining budget. -/
theorem wakeupGo_attempts_le (outs : Nat → PingOutcome) (attempt fuel : Nat) :
    (wakeupGo outs attempt fuel).2.1 ≤ fuel := by
  induction fuel generalizing attempt with
  | zero => simp [wakeupGo]
  | succ n ih =>
    rw [wakeupGo]
    split
    · simp
    · simpa using Nat.succ_le_succ (ih (attempt + 1))

/-- Every sleep of the wake-up loop is `WAKEUP_INTERVAL` seconds. -/
theorem wakeupGo_sleeps (outs : Nat → PingOutcome) (attempt fuel : Nat) :
    ∀ d ∈ (wakeupGo outs attempt fuel).2.2, d = WAKEUP_INTERVAL := by
  induction fuel generalizing attempt with
  | zero => simp [wakeupGo]
  | succ n ih =>
    rw [wakeupGo]
    split
    · simp
    · intro d hd
      rcases List.mem_cons.mp hd with h | h
      · exact h
      · exact ih (attempt + 1) d h

/-- Inversion of a successful wake-up ping: the response was HTTP 200 with
`serviceStatus = "running"` and `keyStatus = "valid"`. -/
theorem wakeupPing_inv (o : PingOutcome) (h : wakeupPing o = true) :
    ∃ ha, o = PingOutcome.resp 200 "running" "valid" ha := by
  cases o with
  | ex => exact absurd h (by simp [wakeupPing])
  | resp status svc key ha =>
    rw [wakeupPing, Bool.and_eq_true, Bool.and_eq_true] at h
    obtain ⟨⟨hs, hsvc⟩, hkey⟩ := h
    rw [beq_iff_eq] at hs hsvc hkey
    exact ⟨ha, by rw [hs, hsvc, hkey]⟩

/-- When the unclaim rename is answered successful, the full per-file
pipeline agrees with the renames-succeed abstraction `processFile`. -/
theorem processFileFull_agrees (f : FileOracles) (h : f.unclaimOk = true) :
    processFileFull f =
      processFile { name := f.name, size := f.size, claimOk := f.claimOk,
                    uploadOuts := f.uploadOuts, moveOk := f.moveOk } := by
  rw [processFileFull, processFile, h]
  simp [unclaimPath, unclaimName]

/-- Under successful post-upload renames, the full per-file pipeline leaves a
file in one of the three claimed states only. -/
theorem processFileFull_ok_cases (f : FileOracles) (hm : f.moveOk = true)
    (hu : f.unclaimOk = true) :
    (processFileFull f).2 = FileFate.notTouched ∨
    (processFileFull f).2 = FileFate.processed ∨
    ∃ r, (processFileFull f).2 = FileFate.unclaimed r := by
  rw [processFileFull, hm, hu]
  by_cases hcl : f.claimOk = false
  · rw [if_pos hcl]
    left; rfl
  · rw [if_neg hcl]
    by_cases hup : (uploadSingleFile f.uploadOuts).1 = true
    · rw [if_pos hup]
      right; left
      simp
    · rw [if_neg hup]
      right; right
      exact ⟨unclaimPath true (claimName f.name), by simp⟩

/-- Sum of sequential reads: `t + 1` chunks of `min C (sz - i * C)` bytes
cover exactly `sz` bytes when `t * C < sz ≤ (t + 1) * C`. -/
theorem chunkSizes_sum (C sz t : Nat) (h1 : t * C < sz) (h2 : sz ≤ (t + 1) * C) :
    ((List.range (t + 1)).map (fun i => min C (sz - i * C))).sum = sz := by
  rw [List.range_succ, List.map_append, List.sum_append]
  have hfull : (List.range t).map (fun i => min C (sz - i * C)) = List.replicate t C := by
    rw [List.eq_replicate_iff]
    refine ⟨by simp, ?_⟩
    intro b hb
    obtain ⟨i, hi, rfl⟩ := List.mem_map.mp hb
    rw [List.mem_range] at hi
    have h3 : i * C + C ≤ t * C := by
      have h4 := Nat.mul_le_mul_right C (Nat.succ_le_of_lt hi)
      rwa [Nat.succ_mul] at h4
    refine Nat.min_eq_left ?_
    have h5 : i * C + C ≤ sz := Nat.le_trans h3 (Nat.le_of_lt h1)
    omega
  rw [hfull, List.sum_replicate, smul_eq_mul]
  have hlast : min C (sz - t * C) = sz - t * C := by
    refine Nat.min_eq_right ?_
    rw [Nat.succ_mul] at h2
    omega
  simp only [List.map_cons, List.map_nil, List.sum_cons, List.sum_nil, hlast]
  omega

/-- Bounds for the ceiling division used by the chunk loop: for `0 < sz` the
chunk count `q = (sz + C - 1) / C` is positive and satisfies
`(q - 1) * C < sz ≤ q * C`. -/
theorem ceil_bounds (C sz : Nat) (hC : 0 < C) (hsz : 0 < sz) :
    ∃ t, (sz + C - 1) / C = t + 1 ∧ t * C < sz ∧ sz ≤ (t + 1) * C := by
  set q := (sz + C - 1) / C with hq
  have hdm := Nat.div_add_mod (sz + C - 1) C
  have hmod : (sz + C - 1) % C < C := Nat.mod_lt _ hC
  have hq1 : 1 ≤ q := by
    rw [hq, Nat.le_div_iff_mul_le hC]
    omega
  have e2 : C * q = q * C := Nat.mul_comm C q
  rw [← hq, e2] at hdm
  refine ⟨q - 1, by omega, ?_, ?_⟩
  · have e1 : (q - 1) * C = q * C - 1 * C := Nat.sub_mul q 1 C
    rw [Nat.one_mul] at e1
    rw [e1]
    generalize q * C = a at hdm ⊢
    omega
  · have e3 : (q - 1 + 1) * C = q * C := by
      congr 1
      omega
    rw [e3]
    generalize q * C = a at hdm ⊢
    omega

/-- Chunk count and completeness for the MMS chunk loop: over-threshold files
produce `ceil(sz / CHUNK_SIZE)` chunks whose sizes add up to the file size. -/
theorem mmsChunkRequests_spec (sz : Nat) (h : CHUNK_SIZE < sz) :
    (mmsChunkRequests sz).length = (sz + CHUNK_SIZE - 1) / CHUNK_SIZE ∧
    ((mmsChunkRequests sz).map requestBytes).sum = sz := by
  have hC : 0 < CHUNK_SIZE := by norm_num [CHUNK_SIZE]
  have hsz : 0 < sz := lt_trans hC h
  obtain ⟨t, ht, h1, h2⟩ := ceil_bounds CHUNK_SIZE sz hC hsz
  constructor
  · simp [mmsChunkRequests]
  · rw [mmsChunkRequests]
    simp only [List.map_map, ht]
    have hsum := chunkSizes_sum CHUNK_SIZE sz t h1 h2
    calc ((List.range (t + 1)).map
            (requestBytes ∘ fun i => Request.chunk i (t + 1) (min CHUNK_SIZE (sz - i * CHUNK_SIZE)))).sum
        = ((List.range (t + 1)).map (fun i => min CHUNK_SIZE (sz - i * CHUNK_SIZE))).sum := by
          congr 1
      _ = sz := hsum

/-- Element characterization of the chunk list: the `i`-th request carries
chunk index `i`, the total chunk count, and the `i`-th sequential read. -/
theorem mmsChunkRequests_get (sz i : Nat) (hi : i < (mmsChunkRequests sz).length) :
    (mmsChunkRequests sz).get ⟨i, hi⟩ =
      Request.chunk i ((sz + CHUNK_SIZE - 1) / CHUNK_SIZE)
        (min CHUNK_SIZE (sz - i * CHUNK_SIZE)) := by
  simp [mmsChunkRequests] at hi ⊢

/- ===== Claim theorems ===== -/

/-- Claim C8, counterexample: for the inbox file named `"a.uploadingx"`
(which contains the reserved `".uploading"` substring without ending in it),
claiming appends `".uploading"`, but unclaiming removes **every**
`".uploading"` occurrence (Python `str.replace`), returning the name `"ax"`,
which differs from the original name.  So `unclaim(claim(f))` does not
restore the original name for such files. -/
theorem C8_roundtrip_mangles_name :
    claimName ("a.uploadingx".toList) = "a.uploadingx.uploading".toList ∧
    unclaimName (claimName ("a.uploadingx".toList)) = "ax".toList ∧
    "ax".toList ≠ "a.uploadingx".toList := by
  refine ⟨by decide, by decide, by decide⟩

/-- Claim C8, amended: `unclaim(claim(f))` always restores the original bytes
byte-for-byte (renames never touch content), and restores the original name
exactly whenever the name does not contain the reserved `".uploading"`
substring — including names with no extension; a name containing
`".uploading"` comes back with every occurrence of that substring removed. -/
theorem C8_roundtrip_amended (nm : List Char) (bytes : List Nat) :
    (unclaimFile (claimFile (nm, bytes))).2 = bytes ∧
    (hasU nm = false → unclaimFile (claimFile (nm, bytes)) = (nm, bytes)) := by
  refine ⟨rfl, fun h => ?_⟩
  rw [unclaimFile, claimFile]
  simp only [unclaimName, claimName]
  rw [stripU_append_pat nm h]

/-- Witness for C8: the extensionless name `"README"` round-trips with name
and bytes intact. -/
theorem C8_roundtrip_witness :
    hasU ("README".toList) = false ∧
    unclaimFile (claimFile ("README".toList, [7, 7, 7])) = ("README".toList, [7, 7, 7]) :=
  ⟨by decide, (C8_roundtrip_amended ("README".toList) [7, 7, 7]).2 (by decide)⟩

/-- Claim C5, counterexample: the inbox file `"data.uploading.txt"` (claim
succeeds, every upload attempt fails) is recorded failed and unclaimed, but
the restored name is `"data.txt"`, not the original `"data.uploading.txt"` —
the statement "its original name restored" of the claim is false for names containing the
reserved substring. -/
theorem C5_unclaim_mangles_name :
    processFile fileMangled = (FileStatus.failed, FileFate.unclaimed ("data.txt".toList)) ∧
    "data.txt".toList ≠ fileMangled.name := by
  refine ⟨by decide, by decide⟩

/-- Claim C5, amended: a claimed file whose every transfer attempt fails is
attempted exactly `MAX_RETRIES = 3` times, then recorded as failed and
unclaimed; unclaiming strips every `".uploading"` occurrence from the claimed
name, which restores the original name exactly when that name does not itself
contain the `".uploading"` substring. -/
theorem C5_retry_bound_amended (f : FileSpec) (hclaim : f.claimOk = true)
    (hfail : ∀ k, 1 ≤ k → k ≤ MAX_RETRIES → attemptSuccess (f.uploadOuts k) = false) :
    (uploadSingleFile f.uploadOuts).2.1 = MAX_RETRIES ∧
    processFile f = (FileStatus.failed, FileFate.unclaimed (stripU (f.name ++ uploadingPat))) ∧
    (hasU f.name = false → stripU (f.name ++ uploadingPat) = f.name) := by
  have hup := uploadAllFail f.uploadOuts hfail
  refine ⟨by rw [hup]; decide, ?_, fun h => stripU_append_pat f.name h⟩
  rw [processFile, hclaim]
  simp only [Bool.true_eq_false, if_false, hup]
  rfl

/-- Witness for C5: the ordinary-named file `"report.txt"` with every attempt
failing makes 3 attempts and comes back unclaimed under its original name. -/
theorem C5_retry_bound_witness :
    (uploadSingleFile fileAllFail.uploadOuts).2.1 = MAX_RETRIES ∧
    processFile fileAllFail =
      (FileStatus.failed, FileFate.unclaimed (stripU (fileAllFail.name ++ uploadingPat))) ∧
    stripU (fileAllFail.name ++ uploadingPat) = fileAllFail.name := by
  have h := C5_retry_bound_amended fileAllFail (by decide) (fun k _ _ => rfl)
  exact ⟨h.1, h.2.1, h.2.2 (by decide)⟩

/-- Claim C6, counterexample: in v1.4.0, a file whose every attempt fails is
retried after delays of 2 then 4 seconds — the delay before the first retry
is `2 ** 1 = 2` seconds, not the 1 second the claim states. -/
theorem C6_v140_first_delay_two_seconds :
    uploadSingleFile (fun _ => UploadOutcome.ex) = (false, 3, [2, 4]) ∧
    (uploadSingleFile (fun _ => UploadOutcome.ex)).2.2.head? ≠ some 1 := by
  refine ⟨by decide, by decide⟩

/-- Claim C6, amended: in batch-uploader.py the delay before the `k`-th retry
is `2 ^ (k - 1)` seconds (1 s, 2 s, 4 s) and no delay follows the final failed
attempt; in the v1.4.0 script the delay before the `k`-th retry is `2 ^ k`
seconds (2 s then 4 s, never 1 s), also with no delay after the final failed
attempt. -/
theorem C6_backoff_amended :
    (∀ outs : Nat → Bool, (∀ k, k ≤ MAX_RETRIES → outs k = false) →
      mmsUploadFile outs = (false, [1, 2, 4])) ∧
    (∀ outs : Nat → UploadOutcome,
      (∀ k, 1 ≤ k → k ≤ MAX_RETRIES → attemptSuccess (outs k) = false) →
      uploadSingleFile outs = (false, 3, [2, 4])) :=
  ⟨fun outs h => mmsAllFail outs h, fun outs h => uploadAllFail outs h⟩

/-- Witness for C6: the always-failing MMS transfer sleeps 1, 2 then 4
seconds. -/
theorem C6_backoff_witness : mmsUploadFile (fun _ => false) = (false, [1, 2, 4]) :=
  C6_backoff_amended.1 (fun _ => false) (fun _ _ => rfl)

/-- Claim C3, counterexample: in v1.4.0 a 40 MiB file — larger than the
25 MiB threshold — is still sent as one single whole-file request per
attempt (`_upload_single_file` posts the entire file and never chunks);
it is not split into 2 chunks. -/
theorem C3_v140_whole_file_over_threshold :
    CHUNK_SIZE < 40 * 1024 * 1024 ∧
    mdasAttemptRequest (claimName ("b.bin".toList)) (40 * 1024 * 1024) =
      Request.wholeFile ("b.bin".toList) (40 * 1024 * 1024) := by
  refine ⟨by norm_num [CHUNK_SIZE], by decide⟩

/-- Claim C3, amended: in batch-uploader.py a file larger than the 25 MiB
threshold is split into `ceil(size / CHUNK_SIZE)` sequential chunks — the
`i`-th request carries chunk index `i`, the total chunk count and the bytes
of the `i`-th sequential read, and the chunk sizes sum to the file size (a
40 MiB file is sent as exactly 2 chunks) — while a file at or below the
threshold is one whole-file request.  The v1.4.0 script never chunks: every
file is uploaded as a single whole-file request regardless of size. -/
theorem C3_chunking_amended :
    (∀ (nm : List Char) (sz : Nat), CHUNK_SIZE < sz →
      (mmsTransferRequests nm sz).length = (sz + CHUNK_SIZE - 1) / CHUNK_SIZE ∧
      ((mmsTransferRequests nm sz).map requestBytes).sum = sz ∧
      ∀ i (hi : i < (mmsTransferRequests nm sz).length),
        (mmsTransferRequests nm sz).get ⟨i, hi⟩ =
          Request.chunk i ((sz + CHUNK_SIZE - 1) / CHUNK_SIZE)
            (min CHUNK_SIZE (sz - i * CHUNK_SIZE))) ∧
    (∀ (nm : List Char) (sz : Nat), sz ≤ CHUNK_SIZE →
      mmsTransferRequests nm sz = [Request.wholeFile nm sz]) ∧
    (mmsTransferRequests ("b.bin".toList) (40 * 1024 * 1024)).length = 2 := by
  refine ⟨?_, ?_, by decide⟩
  · intro nm sz h
    have hreq : mmsTransferRequests nm sz = mmsChunkRequests sz := by
      rw [mmsTransferRequests, if_pos h]
    obtain ⟨hlen, hsum⟩ := mmsChunkRequests_spec sz h
    rw [hreq]
    refine ⟨hlen, hsum, ?_⟩
    intro i hi
    exact mmsChunkRequests_get sz i hi
  · intro nm sz h
    rw [mmsTransferRequests, if_neg (by omega)]

/-- Witness for C3: the two chunk sizes of the 40 MiB file sum to 40 MiB. -/
theorem C3_chunking_witness :
    ((mmsTransferRequests ("b.bin".toList) (40 * 1024 * 1024)).map requestBytes).sum =
      40 * 1024 * 1024 :=
  (C3_chunking_amended.1 ("b.bin".toList) (40 * 1024 * 1024)
    (by norm_num [CHUNK_SIZE])).2.1

/-- Claim C9: an acquire against a lock token whose age exceeds the 30-minute
staleness threshold always succeeds and overwrites the token with the
own info of the acquiring process, regardless of the liveness of the recorded owner and
regardless of the recorded owner host (the staleness test runs before the
host and liveness tests in `InstanceLock.acquire`). -/
theorem C9_stale_override (ctx : LockCtx) (info : LockInfo)
    (h : isLockStale LOCK_STALE_MINUTES ctx.now info = true) :
    lockAcquire ctx (some info) = AcquireOutcome.ok (selfLockInfo ctx) := by
  rw [lockAcquire, h]
  simp

/-- Witness for C9: a 45-minute-old token owned by a live process on a
different host is overridden. -/
theorem C9_stale_override_witness :
    isLockStale LOCK_STALE_MINUTES staleCtx.now staleInfo = true ∧
    lockAcquire staleCtx (some staleInfo) = AcquireOutcome.ok (selfLockInfo staleCtx) :=
  ⟨by decide, C9_stale_override staleCtx staleInfo (by decide)⟩

/-- Claim C10: both ping implementations report success exactly on an HTTP
200 response, whatever the reported key status (even `"invalid"` or
`"inactive"`) and whatever the host-approval value; hence the ping action of
v1.4.0 `main` exits 0 on any 200 response. -/
theorem C10_ping_status_only (svc key : String) (ha : Option String) :
    mdasPing (PingOutcome.resp 200 svc key ha) = true ∧
    mmsPing (PingOutcome.resp 200 svc key ha) = true ∧
    mdasPingExit (PingOutcome.resp 200 svc key ha) = 0 := by
  refine ⟨rfl, rfl, ?_⟩
  rw [mdasPingExit]
  simp [mdasPing]

/-- Witness for C10: HTTP 200 with an invalid key and a denied host still
pings successfully with exit code 0. -/
theorem C10_ping_status_only_witness :
    mdasPing (PingOutcome.resp 200 "running" "invalid" (some "denied")) = true ∧
    mdasPingExit (PingOutcome.resp 200 "running" "invalid" (some "denied")) = 0 :=
  ⟨(C10_ping_status_only "running" "invalid" (some "denied")).1,
   (C10_ping_status_only "running" "invalid" (some "denied")).2.2⟩

/-- Claim C1, counterexample: a run whose instance lock cannot be acquired
returns the lock-conflict record with `failed = 0`, so
`sys.exit(0 if results["failed"] == 0 else 1)` exits with code 0, not the 1
the claim states. -/
theorem C1_lock_conflict_exits_zero :
    (uploadBatch envLockConflict).lockConflict = true ∧
    uploadActionExitCode envLockConflict = 0 :=
  ⟨rfl, rfl⟩

/-- Claim C1, amended: the upload action exits 0 exactly when the run records
zero failed files; a run aborted by wake-up exhaustion (with a nonempty inbox
scan) marks every scanned file failed and exits 1; but a run aborted by a
lock conflict records zero failures and exits 0. -/
theorem C1_exit_code_amended (env : Env) :
    (uploadActionExitCode env = 0 ↔ (uploadBatch env).failed = 0) ∧
    (env.lockOk = false →
      (uploadBatch env).lockConflict = true ∧ uploadActionExitCode env = 0) ∧
    (env.lockOk = true → scanInbox env.inbox ≠ [] →
      (wakeupServer env.pingOuts).1 = false →
      (uploadBatch env).serverUnavailable = true ∧ uploadActionExitCode env = 1) := by
  refine ⟨?_, ?_, ?_⟩
  · rw [uploadActionExitCode]
    split
    · simp_all
    · simp_all
  · intro h
    constructor
    · rw [uploadBatch, if_pos h]
      rfl
    · rw [uploadActionExitCode, uploadBatch, if_pos h]
      rfl
  · intro hl hne hw
    have hbatch : uploadBatch env = serverFailResult (scanInbox env.inbox) := by
      rw [uploadBatch, if_neg (by rw [hl]; exact Bool.noConfusion),
        if_neg (by rw [List.isEmpty_eq_false.mpr hne]; exact Bool.noConfusion), if_pos hw]
    refine ⟨by rw [hbatch]; rfl, ?_⟩
    rw [uploadActionExitCode, hbatch]
    have hpos : 0 < (scanInbox env.inbox).length := List.length_pos.mpr hne
    have hfail : (serverFailResult (scanInbox env.inbox)).failed =
        (scanInbox env.inbox).length := rfl
    rw [hfail, if_neg (by omega)]

/-- Witness for C1: the lock-conflict run exits 0 with the conflict flag
set. -/
theorem C1_exit_code_witness :
    (uploadBatch envLockConflict).lockConflict = true ∧
    uploadActionExitCode envLockConflict = 0 ∧
    ((uploadActionExitCode envLockConflict = 0) ↔ (uploadBatch envLockConflict).failed = 0) :=
  ⟨((C1_exit_code_amended envLockConflict).2.1 rfl).1,
   ((C1_exit_code_amended envLockConflict).2.1 rfl).2,
   (C1_exit_code_amended envLockConflict).1⟩

/-- Claim C7: the wake-up loop sends at most 30 authenticated pings with a
fixed 5-second delay; a single attempt succeeds only on an HTTP 200 response
with `serviceStatus = "running"` and `keyStatus = "valid"` (so a
running-but-unauthenticated response is not success); and when the budget is
exhausted, `upload_batch` aborts with every scanned inbox file counted
failed, zero successes, and no file claimed. -/
theorem C7_wakeup_protocol :
    (∀ outs : Nat → PingOutcome,
      (wakeupServer outs).2.1 ≤ MAX_WAKEUP_ATTEMPTS ∧
      ∀ d ∈ (wakeupServer outs).2.2, d = WAKEUP_INTERVAL) ∧
    (∀ o : PingOutcome, wakeupPing o = true →
      ∃ ha, o = PingOutcome.resp 200 "running" "valid" ha) ∧
    (∀ env : Env, env.lockOk = true → scanInbox env.inbox ≠ [] →
      (wakeupServer env.pingOuts).1 = false →
      (uploadBatch env).failed = (scanInbox env.inbox).length ∧
      (uploadBatch env).successful = 0 ∧
      ∀ p ∈ (uploadBatch env).fates, p.2 = FileFate.notTouched) := by
  refine ⟨?_, wakeupPing_inv, ?_⟩
  · intro outs
    exact ⟨wakeupGo_attempts_le outs 1 MAX_WAKEUP_ATTEMPTS,
      wakeupGo_sleeps outs 1 MAX_WAKEUP_ATTEMPTS⟩
  · intro env hl hne hw
    have hbatch : uploadBatch env = serverFailResult (scanInbox env.inbox) := by
      rw [uploadBatch, if_neg (by rw [hl]; exact Bool.noConfusion),
        if_neg (by rw [List.isEmpty_eq_false.mpr hne]; exact Bool.noConfusion), if_pos hw]
    rw [hbatch]
    refine ⟨rfl, rfl, ?_⟩
    intro p hp
    simp only [serverFailResult, List.mem_map] at hp
    obtain ⟨f, _, rfl⟩ := hp
    rfl

/-- Witness for C7: with every wake-up ping failing, the run marks its one
scanned file failed, claims nothing and uploads nothing. -/
theorem C7_wakeup_protocol_witness :
    (uploadBatch envServerDown).failed = (scanInbox envServerDown.inbox).length ∧
    (uploadBatch envServerDown).successful = 0 :=
  have hne : scanInbox envServerDown.inbox ≠ [] := by
    have h : scanInbox envServerDown.inbox = [fileClean] := rfl
    rw [h]
    exact List.cons_ne_nil _ _
  ⟨(C7_wakeup_protocol.2.2 envServerDown rfl hne rfl).1,
   (C7_wakeup_protocol.2.2 envServerDown rfl hne rfl).2.1⟩

/-- Claim C2, counterexample: in v1.4.0 the run whose (successful) wake-up
ping response carries `hostApproval = "denied"` still claims, uploads and
processes its file — `MDASUploader.upload_batch` never consults the
host-approval field, so the run is not aborted and one file is touched. -/
theorem C2_v140_ignores_host_approval :
    envDeniedHost.pingOuts 1 = PingOutcome.resp 200 "running" "valid" (some "denied") ∧
    (uploadBatch envDeniedHost).successful = 1 ∧
    (uploadBatch envDeniedHost).fates = [("a.txt".toList, FileFate.processed)] :=
  ⟨rfl, rfl, rfl⟩

/-- Claim C2, amended: host-approval gating is fail-closed in
`MMSUploader.upload_batch` of batch-uploader.py — with an API key configured
and a successful connection test, a last-ping host-approval of `"pending"` or
`"denied"` aborts the run with zero files uploaded, while `"approved"`
proceeds to upload every listed file.  The v1.4.0 `MDASUploader.upload_batch`
performs no such check and proceeds even when the field is `"denied"`. -/
theorem C2_host_gate_amended (env : MMSEnv) (hkey : env.hasKey = true)
    (hping : env.pingOk = true) :
    ((env.hostApproval = some "pending" ∨ env.hostApproval = some "denied") →
      mmsUploadBatch env = mmsAbortResult) ∧
    (env.hostApproval = some "approved" →
      (mmsUploadBatch env).uploadsAttempted = env.files.map (fun p => p.1)) := by
  constructor
  · intro h
    rw [mmsUploadBatch]
    split
    · rfl
    · rw [if_neg (by rw [hping]; exact fun hcon => Bool.noConfusion hcon),
        if_pos (by rw [hkey]; rcases h with h | h <;> simp [gateBlocked, h])]
  · intro h
    rw [mmsUploadBatch]
    split
    · rename_i hemp
      rw [List.isEmpty_iff.mp hemp]
      rfl
    · rw [if_neg (by rw [hping]; exact fun hcon => Bool.noConfusion hcon),
        if_neg (by rw [hkey, h]; simp [gateBlocked])]

/-- Witness for C2: an MMS run with a key and host approval pending aborts
with the empty record. -/
theorem C2_host_gate_witness : mmsUploadBatch mmsEnvPending = mmsAbortResult :=
  (C2_host_gate_amended mmsEnvPending rfl rfl).1 (Or.inl rfl)

/-- Claim C4, counterexample: a run that completes normally, uploads
`"doc.pdf"` successfully but fails the move to the processed folder leaves
the file named `"doc.pdf.uploading"` — it still bears the claim suffix, is
excluded from future inbox scans, and the run even counts it successful. -/
theorem C4_move_failure_leaves_claim_suffix :
    (uploadBatchFull envMoveFailsFull).successful = 1 ∧
    (uploadBatchFull envMoveFailsFull).fates =
      [("doc.pdf".toList, FileFate.claimedLeft ("doc.pdf.uploading".toList))] ∧
    endsWithU ("doc.pdf.uploading".toList) = true := by
  refine ⟨rfl, rfl, by decide⟩

/-- Claim C4, amended: after a run that completes without an unclean process
kill, every scanned file whose post-upload rename succeeds (the move to the
processed folder when its upload succeeded, the unclaim rename when it
failed) is in exactly one of the three claimed states — not touched by this
run, moved to processed, or renamed back by unclaim.  But when the
post-upload move to processed fails, the file is left bearing the
`".uploading"` claim suffix and is invisible to future scans; and a failed
unclaim rename after a failed upload likewise leaves the file under its
claimed name. -/
theorem C4_visibility_amended :
    (∀ (env : EnvFull) (p : List Char × FileFate), p ∈ (uploadBatchFull env).fates →
      (∀ f ∈ scanInboxFull env.inbox, f.moveOk = true ∧ f.unclaimOk = true) →
      p.2 = FileFate.notTouched ∨ p.2 = FileFate.processed ∨
      ∃ r, p.2 = FileFate.unclaimed r) ∧
    (∀ f : FileOracles, f.claimOk = true → (uploadSingleFile f.uploadOuts).1 = false →
      f.unclaimOk = false →
      (processFileFull f).2 = FileFate.claimedLeft (claimName f.name)) := by
  constructor
  · intro env p hp hok
    simp only [uploadBatchFull] at hp
    split at hp
    · simp [lockConflictResult] at hp
    · split at hp
      · simp [emptyInboxResult] at hp
      · split at hp
        · simp only [serverFailResultFull, List.mem_map] at hp
          obtain ⟨f, _, rfl⟩ := hp
          left; rfl
        · simp only [mainLoopResultFull, List.map_map, List.mem_map, Function.comp] at hp
          obtain ⟨f, hf, rfl⟩ := hp
          exact processFileFull_ok_cases f (hok f hf).1 (hok f hf).2
  · intro f hclaim hup hunc
    rw [processFileFull, hclaim, hup, hunc]
    simp [unclaimPath]

/-- Witness for C4: the processed fate of `"a.txt"` in a clean full-model run
satisfies the three-state disjunction. -/
theorem C4_visibility_witness :
    ("a.txt".toList, FileFate.processed).2 = FileFate.notTouched ∨
    ("a.txt".toList, FileFate.processed).2 = FileFate.processed ∨
    ∃ r, ("a.txt".toList, FileFate.processed).2 = FileFate.unclaimed r :=
  C4_visibility_amended.1 envCleanFull ("a.txt".toList, FileFate.processed)
    (by
      have h : (uploadBatchFull envCleanFull).fates =
          [("a.txt".toList, FileFate.processed)] := rfl
      rw [h]
      exact List.mem_singleton_self _)
    (by
      intro f hf
      have h : scanInboxFull envCleanFull.inbox = [fileCleanFull] := rfl
      rw [h] at hf
      obtain rfl := List.mem_singleton.mp hf
      exact ⟨rfl, rfl⟩)
